import Mathlib

/-!
Verification development for the BDM bond-distortion package.

The repository ships only its test suite (`src/tests/test_BDM.py`) and Sphinx
configuration; the `shakenbreak.BDM` / `shakenbreak.distortions` modules
themselves are not present under `src/`.  The operations below are therefore
modelled from the specification (`spec.md`), with the explicit computations
appearing in the in-repository test file (nearest-neighbour indices, the
`d_min` formula, the 1-based/0-based index conversions, the distortion-label
format) used to pin the behaviour where the spec leaves a choice open.

Modelling conventions:
* positions are rational 3-vectors and all interatomic distances are carried
  as *squared* distances (`dist2`), so every definition is executable; a
  scale factor `0.85` on a distance becomes `(17/20)^2` on a squared
  distance, and sorting squared distances sorts the distances themselves;
* the periodic minimum-image metric is abstracted to the plain Euclidean
  metric — none of the claims below depends on which metric is used;
* the random displacements of the Rattle Primitive are an explicit stream of
  proposed draws (one list of attempts per rattled atom), which is the
  "deterministic given a fixed random seed" interface the spec asks for;
* Python dicts keyed by strings become association lists with
  insert-or-overwrite semantics (`dictInsert`).
-/

/-- Rational 3-vector used for fractional coordinates and displacements. -/
abbrev V3 : Type := ℚ × ℚ × ℚ

/-- Componentwise vector addition. -/
def vadd (p q : V3) : V3 := (p.1 + q.1, p.2.1 + q.2.1, p.2.2 + q.2.2)

/-- Componentwise vector subtraction. -/
def vsub (p q : V3) : V3 := (p.1 - q.1, p.2.1 - q.2.1, p.2.2 - q.2.2)

/-- Scalar multiplication of a 3-vector. -/
def smul (a : ℚ) (p : V3) : V3 := (a * p.1, a * p.2.1, a * p.2.2)

/-- Squared Euclidean distance between two positions. -/
def dist2 (p q : V3) : ℚ :=
  (p.1 - q.1) ^ 2 + (p.2.1 - q.2.1) ^ 2 + (p.2.2 - q.2.2) ^ 2

/-- Modelled from the spec (§3): one atomic site of a Structure, an
element/species label paired with a 3D position. -/
structure Site where
  species : String
  pos : V3
deriving DecidableEq, Repr

/-- Placeholder site returned by out-of-range list accesses. -/
def defaultSite : Site := { species := "", pos := (0, 0, 0) }

/-- Modelled from the spec (§3): a Structure is an ordered sequence of atomic
sites. -/
structure Structure where
  sites : List Site
deriving DecidableEq, Repr

/-- Position of the atom at 0-based index `i` (default position if out of
range). -/
def posD (s : Structure) (i : ℕ) : V3 := (s.sites.getD i defaultSite).pos

/-- The sites of a structure paired with their 0-based indices. -/
def enumSites (s : Structure) : List (ℕ × Site) :=
  (List.range s.sites.length).map (fun j => (j, s.sites.getD j defaultSite))

/-- Modelled from the spec (§4.5): the fixed charge-state → neighbour-count
lookup policy `0→0, ±2→2, ±4→4, ±6→2, ±8→0`, periodic in magnitude modulo 8
(`shakenbreak.BDM.calc_number_neighbours` is absent from `src/`). -/
def calc_number_neighbours (charge_state : ℤ) : ℕ :=
  let m := charge_state.natAbs % 8
  if m ≤ 4 then m else 8 - m

/-- Modelled from the spec (§3, §9): the closed set of defect kinds, carrying
the species removed/added by the defect. -/
inductive DefectSpecies where
  | vacancy (removed : String)
  | interstitial (added : String)
  | substitution (added removed : String)
deriving DecidableEq, Repr

/-- Modelled from the spec (§4.2, §9): the defect location, either a bare
fractional coordinate (vacancy) or a 1-based atom index (interstitial /
substitution). -/
inductive DefectSite where
  | fracCoords (coords : V3)
  | siteIndex (idx : ℕ)
deriving DecidableEq, Repr

/-- Modelled from the spec (§3, §6): the per-defect record consumed by the
orchestrator (name, supercell structure, defect location and species change,
charge state, transformation metadata). -/
structure DefectEntry where
  name : String
  supercell_structure : Structure
  site : DefectSite
  defect : DefectSpecies
  charge : ℤ
  transformation_dict : List (String × String)
deriving DecidableEq, Repr

/-- Modelled from the spec (§4.5): the raw net electron change implied by the
defect's species substitution/addition/removal and the oxidation states
(removing a species removes its bonding electrons, adding a species adds
them). -/
def electron_change (d : DefectSpecies) (ox : String → ℤ) : ℤ :=
  match d with
  | DefectSpecies.vacancy r => -(ox r)
  | DefectSpecies.interstitial a => ox a
  | DefectSpecies.substitution a r => ox a - ox r

/-- Modelled from the spec (§4.5): `calc_number_electrons` reports the
negative of the raw electron change, so a positive output means an electron
deficit (the `verbose` printing flag has no bearing on the returned value and
is omitted; `shakenbreak.BDM.calc_number_electrons` is absent from
`src/`). -/
def calc_number_electrons (e : DefectEntry) (ox : String → ℤ) : ℤ :=
  match e.defect with
  | DefectSpecies.vacancy r => ox r
  | DefectSpecies.interstitial a => -(ox a)
  | DefectSpecies.substitution a r => ox r - ox a

/-- Modelled from the spec (§4.5, §6): the higher-level per-charged-defect
record updated by the Defect-Dictionary Adapter. -/
structure ChargedDefectDict where
  defect_structure : Structure
  poscar_comment : String
  transformation_dict : List (String × String)
  charge : ℤ
deriving DecidableEq, Repr

/-- Modelled from the spec (§4.5): `update_struct_defect_dict` replaces the
structure field, sets the comment field and leaves every other field
untouched (`shakenbreak.BDM.update_struct_defect_dict` is absent from
`src/`). -/
def update_struct_defect_dict (e : ChargedDefectDict) (new_structure : Structure)
    (comment : String) : ChargedDefectDict :=
  { e with defect_structure := new_structure, poscar_comment := comment }

/-- Decimal rendering of a signed number of tenths: `fmtTenths n` is the
string Python's `f"{x:.1f}"` produces when `x` rounds to `n` tenths.  An
integer count of tenths has no negative zero, so `n = 0` always renders as
`"0.0"`. -/
def fmtTenths (n : ℤ) : String :=
  (if n < 0 then "-" else "") ++ toString (n.natAbs / 10) ++ "." ++ toString (n.natAbs % 10)

/-- Modelled from the spec (§4.4 step 5 and §3): the label
`f"{magnitude*100:.1f}%_Bond_Distortion"` with the non-negative-zero
convention — the magnitude is rounded to a whole number of tenths of a
percent before rendering, so an exactly-zero magnitude is keyed
`"0.0%_Bond_Distortion"`. -/
def distortionLabel (m : ℚ) : String :=
  fmtTenths (round (m * 1000)) ++ "%_Bond_Distortion"

/-- Oxidation-state table of the CdTe test fixture (`{"Cd": +2, "Te": -2}` in
`src/tests/test_BDM.py`). -/
def oxCdTe : String → ℤ := fun sp => if sp = "Cd" then 2 else if sp = "Te" then -2 else 0

/-- Defect entry with the given species change and an otherwise trivial
payload, used to ground the auxiliary calculations on the test fixtures. -/
def mkEntry (d : DefectSpecies) : DefectEntry :=
  { name := ""
    supercell_structure := { sites := [] }
    site := DefectSite.fracCoords (0, 0, 0)
    defect := d
    charge := 0
    transformation_dict := [] }

/-- Flattened pairwise (squared) distance matrix of a structure, diagonal
(self-distance zero) entries included, exactly as
`structure.distance_matrix.flatten()` in `src/tests/test_BDM.py`. -/
def distance_matrix (s : Structure) : List ℚ :=
  (s.sites.map (fun a => s.sites.map (fun b => dist2 a.pos b.pos))).flatten

/-- Ascending sort of the flattened (squared) distance matrix, as
`np.sort(structure.distance_matrix.flatten())` in the test file. -/
def sorted_distances (s : Structure) : List ℚ :=
  List.insertionSort (· ≤ ·) (distance_matrix s)

/-- Number of zero entries of the flattened distance matrix (for a structure
whose sites are pairwise distinct points this is exactly the number of
atoms, the diagonal). -/
def zeroCount (s : Structure) : ℕ :=
  ((distance_matrix s).filter (fun q => decide (q = 0))).length

/-- Ascending sort of the strictly positive entries of the flattened
(squared) distance matrix. -/
def sorted_nonzero (s : Structure) : List ℚ :=
  List.insertionSort (· ≤ ·) ((distance_matrix s).filter (fun q => decide (q ≠ 0)))

/-- Safety factor `0.85` applied to the estimated bulk bond length. -/
def bdmFactor : ℚ := 17 / 20

/-- Modelled from the spec (§4.1) as pinned by `src/tests/test_BDM.py`
(lines 124-125 and 163-164): the squared minimum allowed interatomic
distance, `(0.85)^2` times the entry at rank `number_of_atoms + 20` of the
ascending sorted flattened squared-distance matrix (diagonal zeros
included — the test sorts the *full* flattened matrix, so the offset
`number_of_atoms` skips the zero diagonal and `+ 20` skips anomalous
defect-related short bonds). -/
def d_min2 (s : Structure) : ℚ :=
  bdmFactor ^ 2 * ((sorted_distances s).getD (s.sites.length + 20) 0)

/-- Claim C2 as stated: `d_min` would be `0.85` times the entry at rank
`number_of_atoms + 20` of the sorted pairwise distances *with the zero
self-distances excluded* (squared form of both sides). -/
abbrev claimC2statement (s : Structure) : Prop :=
  d_min2 s = bdmFactor ^ 2 * ((sorted_nonzero s).getD (s.sites.length + 20) 0)

/-- Comparison of indexed sites by their (squared) distance from a fixed
point `c`. -/
abbrev nearerTo (c : V3) : ℕ × Site → ℕ × Site → Prop :=
  fun p q => dist2 c p.2.pos ≤ dist2 c q.2.pos

/-- Modelled from the spec (§4.1): the indexed sites of a structure sorted by
ascending distance from `c`; the sort is stable, so ties are broken by the
original atom ordering. -/
def sortedByDist (s : Structure) (c : V3) : List (ℕ × Site) :=
  List.insertionSort (nearerTo c) (enumSites s)

/-- Modelled from the spec (§4.1): the distance-sorted sites at strictly
positive distance from `c` (self-distance excluded). -/
def positive_neighbours (s : Structure) (c : V3) : List (ℕ × Site) :=
  (sortedByDist s c).filter (fun p => decide (0 < dist2 c p.2.pos))

/-- Number of sites at strictly positive distance from `c`. -/
def posCount (s : Structure) (c : V3) : ℕ :=
  ((enumSites s).filter (fun p => decide (0 < dist2 c p.2.pos))).length

/-- Modelled from the spec (§4.1): the `k` nearest neighbours of the point
`c`, as `(atom_index, element)` pairs in ascending-distance order.  The
reported atom indices are 1-based site numbers (`j + 1` for the atom at
0-based position `j`), the convention pinned by the test file (`[i - 1 for i
in [33, 42]]` etc.). -/
def nearest_neighbours (s : Structure) (c : V3) (k : ℕ) : List (ℕ × String) :=
  ((positive_neighbours s c).take k).map (fun p => (p.1 + 1, p.2.species))

/-- Modelled from the spec (§3): the Distortion Parameters record. -/
structure DistortionParameters where
  unique_site : V3
  num_distorted_neighbours : ℕ
  distorted_atoms : List (ℕ × String)
deriving DecidableEq, Repr

/-- Modelled from the spec (§3, §4.2): the Distortion Parameters computed for
one defect (and reused unchanged across magnitudes). -/
def distortionParams (s : Structure) (c : V3) (k : ℕ) : DistortionParameters :=
  { unique_site := c
    num_distorted_neighbours := (nearest_neighbours s c k).length
    distorted_atoms := nearest_neighbours s c k }

/-- Modelled from the spec (§4.2): the defect's position — the given
fractional coordinate for a vacancy, or the position of the (1-based)
indexed atom otherwise. -/
def defectCoords (s : Structure) (d : DefectSite) : V3 :=
  match d with
  | DefectSite.fracCoords c => c
  | DefectSite.siteIndex i => (s.sites.getD (i - 1) defaultSite).pos

/-- Modelled from the spec (§4.2): move a neighbour at `p` along the line
connecting it to the defect site `c` so that its distance to `c` becomes
`original_distance * (1 + f)`. -/
def distortPos (c : V3) (f : ℚ) (p : V3) : V3 :=
  vadd c (smul (1 + f) (vsub p c))

/-- Modelled from the spec (§3, §4.2): the Distortion Result, a distorted
structure together with the parameters describing what was moved. -/
structure DistortionResult where
  distorted_structure : Structure
  distortion_parameters : DistortionParameters
deriving DecidableEq, Repr

/-- Modelled from the spec (§4.2): the Distortion Primitive
(`shakenbreak.distortions.bdm`, absent from `src/`) — select the `k` nearest
neighbours of the defect site and pull each of them radially by the factor
`1 + f`, leaving every other atom in place. -/
def bdm (s : Structure) (k : ℕ) (f : ℚ) (d : DefectSite) : DistortionResult :=
  let c := defectCoords s d
  let params := distortionParams s c k
  let fsts := params.distorted_atoms.map Prod.fst
  { distorted_structure :=
      { sites := (enumSites s).map (fun p =>
          if decide ((p.1 + 1) ∈ fsts) then { p.2 with pos := distortPos c f p.2.pos } else p.2) }
    distortion_parameters := params }

/-- Stream of proposed random displacements: the `k`-th rattled atom gets the
list `draws k` of bounded attempts (the explicit random source the spec's §9
asks for, standing in for the seeded generator). -/
abbrev Draws : Type := ℕ → List V3

/-- Displace the atom at 0-based index `i` by `d` (structure unchanged when
`i` is out of range). -/
def displaceAtom (s : Structure) (i : ℕ) (d : V3) : Structure :=
  { sites := s.sites.set i
      { s.sites.getD i defaultSite with pos := vadd (s.sites.getD i defaultSite).pos d } }

/-- Modelled from the spec (§4.3): the overlap check — no pairwise (squared)
distance involving atom `i` may lie below the (squared) minimum allowed
distance. -/
def checkAtom (s : Structure) (i : ℕ) (dmin2 : ℚ) : Bool :=
  (List.range s.sites.length).all (fun j =>
    j == i || decide (dmin2 ≤ dist2 (posD s i) (posD s j)))

/-- Score of a candidate placement of atom `i`: its smallest (squared)
distance to any other atom (degenerately `0` for a one-atom structure). -/
def scoreAtom (s : Structure) (i : ℕ) : ℚ :=
  ((((List.range s.sites.length).filter (fun j => !(j == i))).map
    (fun j => dist2 (posD s i) (posD s j))).min?).getD 0

/-- Modelled from the spec (§4.3): try the remaining draws for atom `i`,
accepting the first one that passes the overlap check and otherwise keeping
the best-scoring attempt seen so far; when the retry budget is exhausted the
best attempt is kept and the failure is flagged (`false`). -/
def rattleAtomGo (s : Structure) (i : ℕ) (dmin2 : ℚ) (best : Structure) (bestScore : ℚ) :
    List V3 → Structure × Bool
  | [] => (best, false)
  | d :: rest =>
    let s1 := displaceAtom s i d
    if checkAtom s1 i dmin2 then (s1, true)
    else if bestScore < scoreAtom s1 i then rattleAtomGo s i dmin2 s1 (scoreAtom s1 i) rest
    else rattleAtomGo s i dmin2 best bestScore rest

/-- Modelled from the spec (§4.3): rattle one atom — resample its
displacement (bounded retry list) until the overlap check passes, giving up
on the best attempt found otherwise; the original position is the fallback
candidate.  The boolean records whether the final placement passed the
check. -/
def rattleAtom (s : Structure) (i : ℕ) (dmin2 : ℚ) (draws : List V3) : Structure × Bool :=
  match draws with
  | [] => (s, checkAtom s i dmin2)
  | _ :: _ => rattleAtomGo s i dmin2 s (scoreAtom s i) draws

/-- Modelled from the spec (§4.3): rattle the listed active atoms in order,
threading the working structure; the boolean is `true` exactly when every
rattled atom ended at a placement that passed its overlap check. -/
def rattleGo (dmin2 : ℚ) (draws : Draws) : Structure → List ℕ → ℕ → Structure × Bool
  | s, [], _ => (s, true)
  | s, i :: rest, k =>
    let r := rattleAtom s i dmin2 (draws k)
    let r2 := rattleGo dmin2 draws r.1 rest (k + 1)
    (r2.1, r.2 && r2.2)

/-- Modelled from the spec (§4.3): the Rattle Primitive
(`shakenbreak.distortions.rattle`, absent from `src/`) — apply an independent
bounded random displacement to each atom in `active_atoms`, subject to the
minimum-allowed-distance constraint, with per-atom bounded resampling. -/
def rattle (s : Structure) (dmin2 : ℚ) (active_atoms : List ℕ) (draws : Draws) :
    Structure × Bool :=
  rattleGo dmin2 draws s active_atoms 0

/-- The defect's own 1-based atom index, when the defect occupies an atom. -/
def defectIdx1 (d : DefectSite) : Option ℕ :=
  match d with
  | DefectSite.fracCoords _ => none
  | DefectSite.siteIndex i => some i

/-- Modelled from the spec (§4.4 step 3) as pinned by the index arithmetic of
`src/tests/test_BDM.py` (lines 126-130 and 165-171): the atoms to rattle are
all 0-based indices except the defect's own atom (if any) and the distorted
neighbours, whose recorded 1-based indices `i` stand for 0-based positions
`i - 1`. -/
def active_atoms (s : Structure) (d : DefectSite) (atoms : List (ℕ × String)) : List ℕ :=
  (List.range s.sites.length).filter (fun j =>
    decide (some (j + 1) ≠ defectIdx1 d) && decide ((j + 1) ∉ atoms.map Prod.fst))

/-- Modelled from the spec (§4.4): `apply_rattle_bond_distortions`
(`shakenbreak.BDM`, absent from `src/`) — steps 1-4 of the orchestrator for a
single magnitude: distort the `k` nearest neighbours by `f`, then rattle the
remaining atoms with `d_min` computed from the *original* undistorted
structure. -/
def apply_rattle_bond_distortions (e : DefectEntry) (k : ℕ) (f : ℚ) (draws : Draws) :
    DistortionResult :=
  let s := e.supercell_structure
  let r := bdm s k f e.site
  { r with distorted_structure :=
      (rattle r.distorted_structure (d_min2 s)
        (active_atoms s e.site r.distortion_parameters.distorted_atoms) draws).1 }

/-- Composition stated by claim C3, written directly from the claim's words:
apply the Distortion Primitive, then apply the Rattle Primitive to the
distorted structure with `d_min` computed from the original undistorted
structure and `active_atoms` equal to all atom indices except the defect
site and the distorted neighbour indices (here as an explicit exclusion
list of 0-based positions). -/
def except_defect_and_distorted (s : Structure) (d : DefectSite) (atoms : List (ℕ × String)) :
    List ℕ :=
  let excluded := ((defectIdx1 d).toList).map (fun i => i - 1) ++ atoms.map (fun p => p.1 - 1)
  (List.range s.sites.length).filter (fun j => decide (j ∉ excluded))

/-- Composition of the Distortion Primitive and the Rattle Primitive exactly
as claim C3 describes it. -/
def distort_then_rattle (e : DefectEntry) (k : ℕ) (f : ℚ) (draws : Draws) : DistortionResult :=
  let r := bdm e.supercell_structure k f e.site
  { r with distorted_structure :=
      (rattle r.distorted_structure (d_min2 e.supercell_structure)
        (except_defect_and_distorted e.supercell_structure e.site
          r.distortion_parameters.distorted_atoms) draws).1 }

/-- A defect entry whose 1-based site index, when present, is a genuine
1-based index (at least 1). -/
abbrev validSite (e : DefectEntry) : Prop :=
  match e.site with
  | DefectSite.fracCoords _ => True
  | DefectSite.siteIndex i => 1 ≤ i

/-- Insert-or-overwrite on an association list, the model of assignment into
a Python dict: an existing binding of the key is overwritten in place,
otherwise the new binding is appended. -/
def dictInsert {α : Type} (d : List (String × α)) (key : String) (v : α) :
    List (String × α) :=
  if d.any (fun p => p.1 == key) then
    d.map (fun p => if p.1 == key then (key, v) else p)
  else d ++ [(key, v)]

/-- Number of bindings of `key` in an association list. -/
def countKey {α : Type} (d : List (String × α)) (key : String) : ℕ :=
  (d.filter (fun p => p.1 == key)).length

/-- Modelled from the spec (§4.4): the per-magnitude loop of the Distortion
Orchestrator — for each magnitude, run steps 1-4 and store the result in the
Distortions mapping under the magnitude's label. -/
def buildDistortions (e : DefectEntry) (k : ℕ) (draws : Draws) :
    List ℚ → List (String × DistortionResult) → List (String × DistortionResult)
  | [], acc => acc
  | m :: ms, acc =>
    buildDistortions e k draws ms
      (dictInsert acc (distortionLabel m) (apply_rattle_bond_distortions e k m draws))

/-- Modelled from the spec (§3): the Distortion Record Set returned per
defect entry; `src/tests/test_BDM.py` (line 222) additionally pins a
top-level `distortion_parameters` field. -/
structure DistortionRecordSet where
  unperturbed_defect : DefectEntry
  distortions : List (String × DistortionResult)
  distortion_parameters : DistortionParameters
deriving DecidableEq, Repr

/-- Modelled from the spec (§4.4): the Distortion Orchestrator
(`shakenbreak.BDM.apply_distortions`, absent from `src/`).  The `stdev`
knob only shapes the random draws and is absorbed into `draws`; `verbose`
only controls printing and has no bearing on the returned data. -/
def apply_distortions (e : DefectEntry) (k : ℕ) (bond_distortions : List ℚ) (draws : Draws) :
    DistortionRecordSet :=
  { unperturbed_defect := e
    distortions := buildDistortions e k draws bond_distortions []
    distortion_parameters :=
      distortionParams e.supercell_structure (defectCoords e.supercell_structure e.site) k }

/-- Bounded no-overlap predicate: every pair of distinct atoms of `s` whose
indices both avoid `excluded` is at squared distance at least `dmin2`. -/
abbrev pairsOK (s : Structure) (dmin2 : ℚ) (excluded : List ℕ) : Prop :=
  ∀ i ∈ List.range s.sites.length, ∀ j ∈ List.range s.sites.length,
    i ≠ j → i ∉ excluded → j ∉ excluded → dmin2 ≤ dist2 (posD s i) (posD s j)

/-- No two distinct atoms of `s` are closer than the minimum allowed
(squared) distance. -/
abbrev noOverlap (s : Structure) (dmin2 : ℚ) : Prop := pairsOK s dmin2 []

/-- Structure whose atoms of species `"A"` sit at the given x-coordinates on
a line, used for concrete instances. -/
def mkLine (xs : List ℚ) : Structure :=
  { sites := xs.map (fun x => { species := "A", pos := (x, 0, 0) }) }

/-- Six pairwise-distinct collinear atoms: a concrete structure on which the
rank-`(n+20)` entries of the sorted distance list with and without the zero
self-distances differ. -/
def cex6 : Structure := mkLine [0, 1, 2, 4, 8, 16]

/-- Four collinear atoms used for concrete neighbour-selection instances. -/
def c10s : Structure := mkLine [0, 1, 2, 3]

/-- Two atoms at unit distance: rattling with a large `d_min` and draws that
never satisfy the overlap check must give up and return an overlapping
structure. -/
def sBad : Structure := mkLine [0, 1]

/-- Two well-separated atoms used for a successful rattle run. -/
def sGood : Structure := mkLine [0, 10]

/-- Concrete vacancy defect entry over a four-atom line. -/
def entW : DefectEntry :=
  { name := "V_A"
    supercell_structure := mkLine [0, 1, 2, 3]
    site := DefectSite.fracCoords (0, 0, 0)
    defect := DefectSpecies.vacancy "A"
    charge := 0
    transformation_dict := [] }

/-- C5: the Distortion Record Set returned by `apply_distortions` carries the
original defect entry, equal by value, as its `Unperturbed_Defect` field; in
this pure embedding the input entry itself is necessarily unmodified. -/
theorem claim_C5 (e : DefectEntry) (k : ℕ) (bs : List ℚ) (draws : Draws) :
    (apply_distortions e k bs draws).unperturbed_defect = e ∧
    (apply_distortions e k bs draws).unperturbed_defect.supercell_structure =
      e.supercell_structure :=
  ⟨rfl, rfl⟩

/-- C6: `update_struct_defect_dict` replaces the structure field and the
comment field and leaves the transformation metadata and the charge state
unchanged and equal by value. -/
theorem claim_C6 (e : ChargedDefectDict) (s : Structure) (c : String) :
    (update_struct_defect_dict e s c).defect_structure = s ∧
    (update_struct_defect_dict e s c).poscar_comment = c ∧
    (update_struct_defect_dict e s c).transformation_dict = e.transformation_dict ∧
    (update_struct_defect_dict e s c).charge = e.charge :=
  ⟨rfl, rfl, rfl, rfl⟩

/-- C7: `calc_number_neighbours` realises exactly the tabulated values
`0→0, ±2→2, ±4→4, ±6→2, ±8→0`. -/
theorem claim_C7 :
    calc_number_neighbours 0 = 0 ∧
    calc_number_neighbours 2 = 2 ∧ calc_number_neighbours (-2) = 2 ∧
    calc_number_neighbours 4 = 4 ∧ calc_number_neighbours (-4) = 4 ∧
    calc_number_neighbours 6 = 2 ∧ calc_number_neighbours (-6) = 2 ∧
    calc_number_neighbours 8 = 0 ∧ calc_number_neighbours (-8) = 0 := by
  decide

/-- C8: `calc_number_electrons` returns the negative of the raw net electron
change implied by the defect's species change and the oxidation states, and
on the CdTe fixture table it reproduces the values asserted by
`src/tests/test_BDM.py` (raw changes −2, +2, +4, −4, +2, −2 reported as
+2, −2, −4, +4, −2, +2). -/
theorem claim_C8 :
    (∀ (e : DefectEntry) (ox : String → ℤ),
      calc_number_electrons e ox = -(electron_change e.defect ox)) ∧
    calc_number_electrons (mkEntry (DefectSpecies.vacancy "Cd")) oxCdTe = 2 ∧
    calc_number_electrons (mkEntry (DefectSpecies.vacancy "Te")) oxCdTe = -2 ∧
    calc_number_electrons (mkEntry (DefectSpecies.substitution "Cd" "Te")) oxCdTe = -4 ∧
    calc_number_electrons (mkEntry (DefectSpecies.substitution "Te" "Cd")) oxCdTe = 4 ∧
    calc_number_electrons (mkEntry (DefectSpecies.interstitial "Cd")) oxCdTe = -2 ∧
    calc_number_electrons (mkEntry (DefectSpecies.interstitial "Te")) oxCdTe = 2 := by
  refine ⟨fun e ox => ?_, by decide, by decide, by decide, by decide, by decide, by decide⟩
  obtain ⟨n, ss, st, d, ch, td⟩ := e
  cases d <;> simp [calc_number_electrons, electron_change]

/-- Overwriting the value stored under `key` keeps every key count of an
association list unchanged. -/
theorem countKey_map_overwrite {α : Type} (d : List (String × α)) (key : String) (v : α)
    (key' : String) :
    countKey (d.map (fun p => if p.1 == key then (key, v) else p)) key' = countKey d key' := by
  unfold countKey
  rw [← List.countP_eq_length_filter, ← List.countP_eq_length_filter, List.countP_map]
  apply List.countP_congr
  intro p hp
  by_cases h : p.1 = key
  · subst h
    simp
  · have hb : (p.1 == key) = false := beq_eq_false_iff_ne.mpr h
    simp [Function.comp, hb]

/-- Inserting under `key` leaves exactly one binding of `key`: a fresh key
gets one binding, an existing multiplicity is preserved. -/
theorem countKey_dictInsert_self {α : Type} (d : List (String × α)) (key : String) (v : α) :
    countKey (dictInsert d key v) key = max 1 (countKey d key) := by
  unfold dictInsert
  by_cases h : d.any (fun p => p.1 == key)
  · rw [if_pos h, countKey_map_overwrite]
    obtain ⟨p, hp, hb⟩ := List.any_eq_true.mp h
    have hpos : 0 < countKey d key := by
      have hm : p ∈ d.filter (fun p => p.1 == key) := List.mem_filter.mpr ⟨hp, hb⟩
      exact List.length_pos.mpr (List.ne_nil_of_mem hm)
    omega
  · rw [if_neg h]
    have h0 : countKey d key = 0 := by
      have hnil : d.filter (fun p => p.1 == key) = [] := by
        rw [List.filter_eq_nil_iff]
        intro p hp hb
        exact h (List.any_eq_true.mpr ⟨p, hp, hb⟩)
      simp [countKey, hnil]
    have happ : countKey (d ++ [(key, v)]) key = countKey d key + countKey [(key, v)] key := by
      simp [countKey, List.filter_append]
    rw [happ, h0]
    simp [countKey]

/-- Inserting under `key` does not change the multiplicity of any other
key. -/
theorem countKey_dictInsert_ne {α : Type} (d : List (String × α)) (key : String) (v : α)
    (key' : String) (h : key' ≠ key) :
    countKey (dictInsert d key v) key' = countKey d key' := by
  unfold dictInsert
  by_cases hA : d.any (fun p => p.1 == key)
  · rw [if_pos hA, countKey_map_overwrite]
  · rw [if_neg hA]
    have hk : (key == key') = false := beq_eq_false_iff_ne.mpr (Ne.symm h)
    simp [countKey, List.filter_append, hk]

/-- Multiplicity of a key after the orchestrator's per-magnitude loop: a key
labelled by some processed magnitude ends with exactly one binding (or its
pre-existing multiplicity), every other key is untouched. -/
theorem buildDistortions_countKey (e : DefectEntry) (k : ℕ) (draws : Draws) :
    ∀ (ms : List ℚ) (acc : List (String × DistortionResult)) (key : String),
      countKey (buildDistortions e k draws ms acc) key =
        if key ∈ ms.map distortionLabel then max 1 (countKey acc key) else countKey acc key := by
  intro ms
  induction ms with
  | nil => intro acc key; simp [buildDistortions]
  | cons m ms ih =>
    intro acc key
    rw [buildDistortions, ih]
    by_cases h1 : key = distortionLabel m
    · subst h1
      rw [countKey_dictInsert_self]
      by_cases h2 : distortionLabel m ∈ ms.map distortionLabel <;> simp [h2]
    · rw [countKey_dictInsert_ne _ _ _ _ h1]
      simp [List.map_cons, List.mem_cons, h1]

/-- C1: every magnitude `m` of the `bond_distortions` sequence yields exactly
one binding in the returned Distortions mapping, keyed by the rounded
percentage label, and the exactly-zero magnitude is keyed
`"0.0%_Bond_Distortion"`, never `"-0.0%_Bond_Distortion"`, for every call
pattern (magnitude ranges crossing zero included). -/
theorem claim_C1 :
    (∀ (e : DefectEntry) (k : ℕ) (bs : List ℚ) (draws : Draws), ∀ m ∈ bs,
      countKey (apply_distortions e k bs draws).distortions (distortionLabel m) = 1) ∧
    distortionLabel 0 = "0.0%_Bond_Distortion" ∧
    distortionLabel 0 ≠ "-0.0%_Bond_Distortion" := by
  refine ⟨fun e k bs draws m hm => ?_, by with_unfolding_all decide, by with_unfolding_all decide⟩
  show countKey (buildDistortions e k draws bs []) (distortionLabel m) = 1
  rw [buildDistortions_countKey]
  have hmem : distortionLabel m ∈ bs.map distortionLabel := List.mem_map_of_mem _ hm
  simp [hmem, countKey]

/-- Concrete run of C1: the magnitude `-1/2` of the range `[-1/2, 0, 1/2]`
produces exactly one `"-50.0%_Bond_Distortion"` binding. -/
theorem claim_C1_witness :
    ((-1/2 : ℚ) ∈ [(-1/2 : ℚ), 0, 1/2]) ∧
    countKey (apply_distortions entW 2 [(-1/2 : ℚ), 0, 1/2] (fun _ => [])).distortions
      (distortionLabel (-1/2)) = 1 :=
  ⟨by with_unfolding_all decide,
    claim_C1.1 entW 2 [(-1/2 : ℚ), 0, 1/2] (fun _ => []) (-1/2) (by with_unfolding_all decide)⟩

/-- Membership in the indexed site list. -/
theorem mem_enumSites (s : Structure) (j : ℕ) (t : Site) :
    (j, t) ∈ enumSites s ↔ j < s.sites.length ∧ t = s.sites.getD j defaultSite := by
  unfold enumSites
  simp only [List.mem_map, List.mem_range, Prod.mk.injEq]
  constructor
  · rintro ⟨a, ha, rfl, rfl⟩
    exact ⟨ha, rfl⟩
  · rintro ⟨hj, rfl⟩
    exact ⟨j, hj, rfl, rfl⟩

/-- Sorting by distance permutes the indexed sites. -/
theorem mem_sortedByDist (s : Structure) (c : V3) (p : ℕ × Site) :
    p ∈ sortedByDist s c ↔ p ∈ enumSites s :=
  (List.perm_insertionSort _ _).mem_iff

/-- A positive-distance neighbour is an indexed site at strictly positive
distance from the defect point. -/
theorem mem_positive_neighbours (s : Structure) (c : V3) (p : ℕ × Site)
    (h : p ∈ positive_neighbours s c) : p ∈ enumSites s ∧ 0 < dist2 c p.2.pos := by
  obtain ⟨h1, h2⟩ := List.mem_filter.mp h
  exact ⟨(mem_sortedByDist s c p).mp h1, of_decide_eq_true h2⟩

/-- Every `(atom_index, element)` pair reported by the neighbour selection is
the 1-based index of a genuine site carrying that element label. -/
theorem nearest_neighbours_mem (s : Structure) (c : V3) (k i : ℕ) (sp : String)
    (h : (i, sp) ∈ nearest_neighbours s c k) :
    ∃ j, j < s.sites.length ∧ i = j + 1 ∧ (s.sites.getD j defaultSite).species = sp := by
  unfold nearest_neighbours at h
  obtain ⟨p, hp, heq⟩ := List.mem_map.mp h
  have hp2 := mem_positive_neighbours s c p (List.mem_of_mem_take hp)
  obtain ⟨hlt, ht⟩ := (mem_enumSites s p.1 p.2).mp hp2.1
  rw [Prod.mk.injEq] at heq
  obtain ⟨h1, h2⟩ := heq
  refine ⟨p.1, hlt, h1.symm, ?_⟩
  rw [← ht]
  exact h2

/-- Sorting then filtering preserves the number of positive-distance
neighbours. -/
theorem positive_neighbours_length (s : Structure) (c : V3) :
    (positive_neighbours s c).length = posCount s c :=
  ((List.perm_insertionSort _ _).filter _).length_eq

/-- C4: with enough strictly-positive-distance sites available, the
`distorted_atoms` list has exactly the requested length, requesting one more
neighbour extends the list by one further atom rather than reselecting, and
the list is ordered from nearest to farthest. -/
theorem claim_C4 (s : Structure) (c : V3) (k : ℕ) (h : k + 1 ≤ posCount s c) :
    ((distortionParams s c k).distorted_atoms).length = k ∧
    (∃ a, (distortionParams s c (k + 1)).distorted_atoms =
      (distortionParams s c k).distorted_atoms ++ [a]) ∧
    List.Pairwise (fun p q : ℕ × String =>
      dist2 c (posD s (p.1 - 1)) ≤ dist2 c (posD s (q.1 - 1)))
      ((distortionParams s c k).distorted_atoms) := by
  have hlen : (positive_neighbours s c).length = posCount s c := positive_neighbours_length s c
  have hk : k < (positive_neighbours s c).length := by omega
  refine ⟨?_, ?_, ?_⟩
  · show (nearest_neighbours s c k).length = k
    unfold nearest_neighbours
    rw [List.length_map, List.length_take]
    omega
  · show ∃ a, nearest_neighbours s c (k + 1) = nearest_neighbours s c k ++ [a]
    have hstep : (positive_neighbours s c).take (k + 1) =
        (positive_neighbours s c).take k ++ [(positive_neighbours s c)[k]] := by
      rw [List.take_succ, List.getElem?_eq_getElem hk]
      rfl
    exact ⟨((positive_neighbours s c)[k].1 + 1, (positive_neighbours s c)[k].2.species),
      by unfold nearest_neighbours; rw [hstep, List.map_append]; rfl⟩
  · show List.Pairwise _ (nearest_neighbours s c k)
    unfold nearest_neighbours
    rw [List.pairwise_map]
    have hsorted : List.Pairwise (nearerTo c) (sortedByDist s c) := by
      haveI : IsTotal (ℕ × Site) (nearerTo c) := ⟨fun p q => le_total _ _⟩
      haveI : IsTrans (ℕ × Site) (nearerTo c) := ⟨fun p q r hpq hqr => le_trans hpq hqr⟩
      exact List.sorted_insertionSort _ _
    have hfil : List.Pairwise (nearerTo c) (positive_neighbours s c) :=
      List.Pairwise.filter _ hsorted
    have htake : List.Pairwise (nearerTo c) ((positive_neighbours s c).take k) :=
      List.Pairwise.sublist (List.take_sublist k _) hfil
    refine List.Pairwise.imp_of_mem ?_ htake
    intro p q hp hq hpq
    have hpE := (mem_positive_neighbours s c p (List.mem_of_mem_take hp)).1
    have hqE := (mem_positive_neighbours s c q (List.mem_of_mem_take hq)).1
    obtain ⟨hplt, hpt⟩ := (mem_enumSites s p.1 p.2).mp hpE
    obtain ⟨hqlt, hqt⟩ := (mem_enumSites s q.1 q.2).mp hqE
    show dist2 c (posD s (p.1 + 1 - 1)) ≤ dist2 c (posD s (q.1 + 1 - 1))
    rw [Nat.add_sub_cancel, Nat.add_sub_cancel]
    unfold posD
    rw [← hpt, ← hqt]
    exact hpq

/-- Concrete run of C4 on the four-atom line: the two nearest neighbours of
the origin are selected, and asking for three extends that list. -/
theorem claim_C4_witness :
    2 + 1 ≤ posCount c10s (0, 0, 0) ∧
    (((distortionParams c10s (0, 0, 0) 2).distorted_atoms).length = 2 ∧
      (∃ a, (distortionParams c10s (0, 0, 0) (2 + 1)).distorted_atoms =
        (distortionParams c10s (0, 0, 0) 2).distorted_atoms ++ [a]) ∧
      List.Pairwise (fun p q : ℕ × String =>
        dist2 (0, 0, 0) (posD c10s (p.1 - 1)) ≤ dist2 (0, 0, 0) (posD c10s (q.1 - 1)))
        ((distortionParams c10s (0, 0, 0) 2).distorted_atoms)) :=
  ⟨by with_unfolding_all decide, claim_C4 c10s (0, 0, 0) 2 (by with_unfolding_all decide)⟩

/-- C10: the atom indices recorded in `distorted_atoms` are 1-based site
numbers (one plus the 0-based position), the indices consumed as
`active_atoms` are 0-based positions excluding the recorded indices shifted
by one, and excluding the recorded indices verbatim would select a different
(wrong) set of atoms, exhibited on a concrete structure. -/
theorem claim_C10 :
    (∀ (s : Structure) (c : V3) (k i : ℕ) (sp : String), (i, sp) ∈ nearest_neighbours s c k →
      ∃ j, j < s.sites.length ∧ i = j + 1 ∧ (s.sites.getD j defaultSite).species = sp) ∧
    (∀ (s : Structure) (d : DefectSite) (atoms : List (ℕ × String)) (j : ℕ),
      j ∈ active_atoms s d atoms → j < s.sites.length ∧ (j + 1) ∉ atoms.map Prod.fst) ∧
    active_atoms c10s (DefectSite.fracCoords (0, 0, 0)) (nearest_neighbours c10s (0, 0, 0) 2) ≠
      (List.range c10s.sites.length).filter
        (fun j => decide (j ∉ (nearest_neighbours c10s (0, 0, 0) 2).map Prod.fst)) := by
  refine ⟨nearest_neighbours_mem, ?_, by with_unfolding_all decide⟩
  intro s d atoms j hj
  obtain ⟨hr, hp⟩ := List.mem_filter.mp hj
  rw [Bool.and_eq_true] at hp
  exact ⟨List.mem_range.mp hr, of_decide_eq_true hp.2⟩

/-- Concrete instance of C10: the neighbour recorded as atom 2 of the
four-atom line is the site at 0-based position 1. -/
theorem claim_C10_witness :
    ((2 : ℕ), "A") ∈ nearest_neighbours c10s (0, 0, 0) 2 ∧
    ∃ j, j < c10s.sites.length ∧ 2 = j + 1 ∧ (c10s.sites.getD j defaultSite).species = "A" :=
  ⟨by with_unfolding_all decide,
    claim_C10.1 c10s (0, 0, 0) 2 2 "A" (by with_unfolding_all decide)⟩

/-- Every recorded distorted-atom index is a 1-based site number, hence at
least one. -/
theorem nearest_neighbours_fst_pos (s : Structure) (c : V3) (k : ℕ) :
    ∀ a ∈ (nearest_neighbours s c k).map Prod.fst, 1 ≤ a := by
  intro a ha
  obtain ⟨⟨i, sp⟩, hmem, rfl⟩ := List.mem_map.mp ha
  obtain ⟨j, _, hij, _⟩ := nearest_neighbours_mem s c k i sp hmem
  omega

/-- Subtracting one from a list of 1-based indices membership-corresponds to
adding one to a 0-based index. -/
theorem mem_map_sub_one (atoms : List (ℕ × String))
    (ha : ∀ a ∈ atoms.map Prod.fst, 1 ≤ a) (j : ℕ) :
    j ∈ atoms.map (fun p => p.1 - 1) ↔ (j + 1) ∈ atoms.map Prod.fst := by
  simp only [List.mem_map]
  constructor
  · rintro ⟨p, hp, hpe⟩
    refine ⟨p, hp, ?_⟩
    have h1 := ha p.1 (List.mem_map_of_mem _ hp)
    omega
  · rintro ⟨p, hp, hpe⟩
    exact ⟨p, hp, by omega⟩

/-- The orchestrator's mask-style active-atom computation agrees with the
explicit exclusion list described by claim C3, provided the recorded
neighbour indices are genuine 1-based site numbers. -/
theorem active_atoms_eq_except (s : Structure) (d : DefectSite) (atoms : List (ℕ × String))
    (hd : ∀ i, d = DefectSite.siteIndex i → 1 ≤ i)
    (ha : ∀ a ∈ atoms.map Prod.fst, 1 ≤ a) :
    active_atoms s d atoms = except_defect_and_distorted s d atoms := by
  unfold active_atoms except_defect_and_distorted
  apply List.filter_congr
  intro j hj
  rw [← Bool.decide_and, decide_eq_decide]
  have hiff := mem_map_sub_one atoms ha j
  cases d with
  | fracCoords c0 =>
    simp only [defectIdx1, Option.toList, List.map_nil, List.nil_append]
    constructor
    · rintro ⟨h1, h2⟩ hm
      exact h2 (hiff.mp hm)
    · intro hni
      exact ⟨by simp, fun hm => hni (hiff.mpr hm)⟩
  | siteIndex i =>
    have hi : 1 ≤ i := hd i rfl
    simp only [defectIdx1, Option.toList, List.map_cons, List.map_nil, List.singleton_append,
      List.mem_cons]
    constructor
    · rintro ⟨h1, h2⟩ hm
      rcases hm with hm | hm
      · apply h1
        have hji : j + 1 = i := by omega
        rw [hji]
      · exact h2 (hiff.mp hm)
    · intro hni
      refine ⟨?_, fun hm => hni (Or.inr (hiff.mpr hm))⟩
      intro heq
      apply hni
      left
      have hji : j + 1 = i := Option.some.inj heq
      omega

/-- C3: for a valid defect entry, `apply_rattle_bond_distortions` is exactly
the composition of the Distortion Primitive followed by the Rattle Primitive
with `d_min` computed from the original undistorted structure and
`active_atoms` equal to all atom indices except the defect site and the
distorted neighbour indices. -/
theorem claim_C3 (e : DefectEntry) (k : ℕ) (f : ℚ) (draws : Draws) (h : validSite e) :
    apply_rattle_bond_distortions e k f draws = distort_then_rattle e k f draws := by
  have hact : active_atoms e.supercell_structure e.site
      (bdm e.supercell_structure k f e.site).distortion_parameters.distorted_atoms =
      except_defect_and_distorted e.supercell_structure e.site
      (bdm e.supercell_structure k f e.site).distortion_parameters.distorted_atoms := by
    apply active_atoms_eq_except
    · intro i hi
      unfold validSite at h
      rw [hi] at h
      exact h
    · exact nearest_neighbours_fst_pos _ _ _
  simp only [apply_rattle_bond_distortions, distort_then_rattle]
  rw [hact]

/-- Concrete run of C3 on the four-atom vacancy entry. -/
theorem claim_C3_witness :
    validSite entW ∧
    apply_rattle_bond_distortions entW 2 (1/2) (fun _ => [((1 : ℚ), 0, 0)]) =
      distort_then_rattle entW 2 (1/2) (fun _ => [((1 : ℚ), 0, 0)]) :=
  ⟨trivial, claim_C3 entW 2 (1/2) (fun _ => [((1 : ℚ), 0, 0)]) trivial⟩

/-- Squared distances are nonnegative. -/
theorem dist2_nonneg (p q : V3) : 0 ≤ dist2 p q := by
  unfold dist2
  positivity

/-- Every entry of the flattened distance matrix is nonnegative. -/
theorem distance_matrix_nonneg (s : Structure) : ∀ x ∈ distance_matrix s, 0 ≤ x := by
  intro x hx
  unfold distance_matrix at hx
  rw [List.mem_flatten] at hx
  obtain ⟨l, hl, hxl⟩ := hx
  obtain ⟨a, ha, rfl⟩ := List.mem_map.mp hl
  obtain ⟨b, hb, rfl⟩ := List.mem_map.mp hxl
  exact dist2_nonneg _ _

/-- C2 as stated fails on the code's `d_min`: on a six-atom structure the
rank `number_of_atoms + 20` entry of the sorted distance list with the zero
self-distances excluded differs from the value the pipeline actually uses
(which indexes the sorted list *including* the zero diagonal). -/
theorem claim_C2_counterexample : ¬ claimC2statement cex6 := by
  with_unfolding_all decide

/-- C2, amended to the indexing the code performs: when the structure's
distinct sites never coincide (exactly `number_of_atoms` zero entries in the
flattened matrix), `d_min` equals `0.85` times the entry at rank 20 of the
ascending sorted pairwise distances with the zero self-distances excluded —
equivalently, rank `number_of_atoms + 20` of the list including them (both
sides squared). -/
theorem claim_C2 (s : Structure) (h : zeroCount s = s.sites.length) :
    d_min2 s = bdmFactor ^ 2 * ((sorted_nonzero s).getD 20 0) := by
  have hnn : ∀ x ∈ distance_matrix s, 0 ≤ x := distance_matrix_nonneg s
  have hzero : (distance_matrix s).filter (fun q => decide (q = 0)) =
      List.replicate s.sites.length 0 := by
    rw [List.eq_replicate_iff]
    exact ⟨h, fun b hb => of_decide_eq_true (List.mem_filter.mp hb).2⟩
  have hperm : (sorted_distances s).Perm
      (List.replicate s.sites.length 0 ++ sorted_nonzero s) := by
    have p1 : (sorted_distances s).Perm (distance_matrix s) := List.perm_insertionSort _ _
    have p2 : (distance_matrix s).Perm
        ((distance_matrix s).filter (fun q => decide (q = 0)) ++
          (distance_matrix s).filter (fun x => !(decide (x = 0)))) :=
      (List.filter_append_perm _ _).symm
    have p3 : (distance_matrix s).filter (fun q => decide (q = 0)) ++
          (distance_matrix s).filter (fun x => !(decide (x = 0))) =
        List.replicate s.sites.length 0 ++
          (distance_matrix s).filter (fun q => decide (q ≠ 0)) := by
      rw [hzero]
      congr 1
      apply List.filter_congr
      intro x hx
      simp [ne_eq, decide_not]
    have p4 : (List.replicate s.sites.length 0 ++
          (distance_matrix s).filter (fun q => decide (q ≠ 0))).Perm
        (List.replicate s.sites.length 0 ++ sorted_nonzero s) :=
      List.Perm.append_left _ (List.perm_insertionSort _ _).symm
    have p23 : (distance_matrix s).Perm
        (List.replicate s.sites.length 0 ++
          (distance_matrix s).filter (fun q => decide (q ≠ 0))) := p3 ▸ p2
    exact (p1.trans p23).trans p4
  have hsortedL : List.Sorted (· ≤ ·) (sorted_distances s) := List.sorted_insertionSort _ _
  have hsortedR : List.Sorted (· ≤ ·)
      (List.replicate s.sites.length 0 ++ sorted_nonzero s) := by
    refine List.pairwise_append.mpr
      ⟨List.pairwise_replicate.mpr (Or.inr le_rfl), List.sorted_insertionSort _ _, ?_⟩
    intro a haR b hbS
    have ha0 : a = 0 := List.eq_of_mem_replicate haR
    have hbm : b ∈ (distance_matrix s).filter (fun q => decide (q ≠ 0)) :=
      (List.perm_insertionSort _ _).mem_iff.mp hbS
    have hb0 : 0 ≤ b := hnn b (List.mem_filter.mp hbm).1
    rw [ha0]
    exact hb0
  have hsplit := List.eq_of_perm_of_sorted hperm hsortedL hsortedR
  rw [d_min2, hsplit, List.getD_append_right]
  · rw [List.length_replicate, Nat.add_sub_cancel_left]
  · rw [List.length_replicate]
    omega

/-- Concrete run of the amended C2 on the six-atom line: all sites are
distinct, and `d_min` is the rank-20 strictly positive sorted distance
scaled by the safety factor. -/
theorem claim_C2_witness :
    zeroCount cex6 = cex6.sites.length ∧
    d_min2 cex6 = bdmFactor ^ 2 * ((sorted_nonzero cex6).getD 20 0) :=
  ⟨by with_unfolding_all decide, claim_C2 cex6 (by with_unfolding_all decide)⟩

/-- Squared distance is symmetric. -/
theorem dist2_symm (p q : V3) : dist2 p q = dist2 q p := by
  unfold dist2
  ring

/-- Displacing one atom preserves the number of atoms. -/
theorem displaceAtom_length (s : Structure) (i : ℕ) (d : V3) :
    (displaceAtom s i d).sites.length = s.sites.length :=
  List.length_set _ _ _

/-- Displacing one atom leaves every other atom's position unchanged. -/
theorem posD_displaceAtom_ne (s : Structure) (i : ℕ) (d : V3) (j : ℕ) (h : j ≠ i) :
    posD (displaceAtom s i d) j = posD s j := by
  unfold posD displaceAtom
  simp only [List.getD_eq_getElem?_getD]
  rw [List.getElem?_set_ne (Ne.symm h)]

/-- The retry loop only ever moves atom `i`: length is preserved. -/
theorem rattleAtomGo_length (s : Structure) (i : ℕ) (dmin2 : ℚ) :
    ∀ (ds : List V3) (best : Structure) (bs : ℚ),
      best.sites.length = s.sites.length →
      ((rattleAtomGo s i dmin2 best bs ds).1).sites.length = s.sites.length := by
  intro ds
  induction ds with
  | nil => intro best bs hb; exact hb
  | cons d rest ih =>
    intro best bs hb
    rw [rattleAtomGo]
    split
    · exact displaceAtom_length s i d
    · split
      · exact ih _ _ (displaceAtom_length s i d)
      · exact ih _ _ hb

/-- The rattled structure for one atom has the same number of atoms. -/
theorem rattleAtom_length (s : Structure) (i : ℕ) (dmin2 : ℚ) (ds : List V3) :
    ((rattleAtom s i dmin2 ds).1).sites.length = s.sites.length := by
  cases ds with
  | nil => rfl
  | cons d rest => exact rattleAtomGo_length s i dmin2 (d :: rest) s _ rfl

/-- The retry loop leaves every atom other than `i` in place. -/
theorem rattleAtomGo_posD (s : Structure) (i : ℕ) (dmin2 : ℚ) :
    ∀ (ds : List V3) (best : Structure) (bs : ℚ),
      (∀ j, j ≠ i → posD best j = posD s j) →
      ∀ j, j ≠ i → posD ((rattleAtomGo s i dmin2 best bs ds).1) j = posD s j := by
  intro ds
  induction ds with
  | nil => intro best bs hb; exact hb
  | cons d rest ih =>
    intro best bs hb j hj
    rw [rattleAtomGo]
    split
    · exact posD_displaceAtom_ne s i d j hj
    · split
      · exact ih _ _ (fun j hj => posD_displaceAtom_ne s i d j hj) j hj
      · exact ih _ _ hb j hj

/-- Rattling one atom leaves every other atom's position unchanged. -/
theorem rattleAtom_posD (s : Structure) (i : ℕ) (dmin2 : ℚ) (ds : List V3) (j : ℕ)
    (h : j ≠ i) : posD ((rattleAtom s i dmin2 ds).1) j = posD s j := by
  cases ds with
  | nil => rfl
  | cons d rest =>
    exact rattleAtomGo_posD s i dmin2 (d :: rest) s _ (fun _ _ => rfl) j h

/-- When the retry loop reports success the final placement passed the
overlap check. -/
theorem rattleAtomGo_check (s : Structure) (i : ℕ) (dmin2 : ℚ) :
    ∀ (ds : List V3) (best : Structure) (bs : ℚ),
      (rattleAtomGo s i dmin2 best bs ds).2 = true →
      checkAtom ((rattleAtomGo s i dmin2 best bs ds).1) i dmin2 = true := by
  intro ds
  induction ds with
  | nil =>
    intro best bs hb
    exact absurd hb (by simp [rattleAtomGo])
  | cons d rest ih =>
    intro best bs hb
    rw [rattleAtomGo] at hb ⊢
    revert hb
    split
    · intro _
      assumption
    · split
      · exact ih _ _
      · exact ih _ _

/-- When rattling one atom reports success the final placement passed the
overlap check. -/
theorem rattleAtom_check (s : Structure) (i : ℕ) (dmin2 : ℚ) (ds : List V3)
    (h : (rattleAtom s i dmin2 ds).2 = true) :
    checkAtom ((rattleAtom s i dmin2 ds).1) i dmin2 = true := by
  cases ds with
  | nil => exact h
  | cons d rest => exact rattleAtomGo_check s i dmin2 (d :: rest) s _ h

/-- Unfolding of the overlap check: a passed check bounds every pairwise
distance involving the checked atom. -/
theorem checkAtom_spec (s : Structure) (i : ℕ) (dmin2 : ℚ)
    (h : checkAtom s i dmin2 = true) :
    ∀ j, j < s.sites.length → j ≠ i → dmin2 ≤ dist2 (posD s i) (posD s j) := by
  intro j hj hne
  have hall := List.all_eq_true.mp h j (List.mem_range.mpr hj)
  rw [Bool.or_eq_true] at hall
  rcases hall with hbeq | hdec
  · exact absurd (eq_of_beq hbeq) hne
  · exact of_decide_eq_true hdec

/-- Invariant of the rattle loop: if every pair of atoms outside the
remaining active list already respects the bound and every rattled atom's
final placement passes its overlap check, then every pair of the final
structure respects the bound. -/
theorem rattleGo_safe (dmin2 : ℚ) (draws : Draws) :
    ∀ (active : List ℕ) (s : Structure) (k : ℕ),
      (∀ i j, i < s.sites.length → j < s.sites.length → i ≠ j →
        i ∉ active → j ∉ active → dmin2 ≤ dist2 (posD s i) (posD s j)) →
      (rattleGo dmin2 draws s active k).2 = true →
      ∀ i j, i < ((rattleGo dmin2 draws s active k).1).sites.length →
        j < ((rattleGo dmin2 draws s active k).1).sites.length → i ≠ j →
        dmin2 ≤ dist2 (posD ((rattleGo dmin2 draws s active k).1) i)
          (posD ((rattleGo dmin2 draws s active k).1) j) := by
  intro active
  induction active with
  | nil =>
    intro s k hpre hflag i j hi hj hne
    exact hpre i j hi hj hne (List.not_mem_nil i) (List.not_mem_nil j)
  | cons a rest ih =>
    intro s k hpre hflag i j hi hj hne
    simp only [rattleGo] at hflag hi hj ⊢
    rw [Bool.and_eq_true] at hflag
    obtain ⟨hfa, hfrest⟩ := hflag
    have hlen : ((rattleAtom s a dmin2 (draws k)).1).sites.length = s.sites.length :=
      rattleAtom_length s a dmin2 (draws k)
    refine ih ((rattleAtom s a dmin2 (draws k)).1) (k + 1) ?_ hfrest i j hi hj hne
    intro i j hi hj hne hir hjr
    have hchk := rattleAtom_check s a dmin2 (draws k) hfa
    by_cases hia : i = a
    · rw [hia]
      exact checkAtom_spec _ a dmin2 hchk j hj (by omega)
    · by_cases hja : j = a
      · rw [hja, dist2_symm]
        exact checkAtom_spec _ a dmin2 hchk i hi (by omega)
      · rw [rattleAtom_posD s a dmin2 (draws k) i hia,
          rattleAtom_posD s a dmin2 (draws k) j hja]
        exact hpre i j (by omega) (by omega) hne
          (by simp [List.mem_cons, hia, hir]) (by simp [List.mem_cons, hja, hjr])

/-- C9, amended with the retry-budget proviso the spec itself states (§4.3,
§7, §9): if the input structure keeps every pair of non-rattled atoms at
least `d_min` apart and every rattled atom found a placement passing its
overlap check within the retry budget, then the returned structure never
places two distinct atoms closer than `d_min` (squared form).  Without that
proviso the property fails, see the counterexample. -/
theorem claim_C9 (s : Structure) (dmin2 : ℚ) (active : List ℕ) (draws : Draws)
    (h1 : pairsOK s dmin2 active) (h2 : (rattle s dmin2 active draws).2 = true) :
    noOverlap (rattle s dmin2 active draws).1 dmin2 := by
  intro i hi j hj hne _ _
  refine rattleGo_safe dmin2 draws active s 0 ?_ h2 i j
    (List.mem_range.mp hi) (List.mem_range.mp hj) hne
  intro i j hi hj hne hia hja
  exact h1 i (List.mem_range.mpr hi) j (List.mem_range.mpr hj) hne hia hja

/-- C9 as universally stated fails: two atoms at unit distance, a `d_min`
bound of 2 (squared: 4), one active atom whose only draw violates the check —
the Rattle Primitive exhausts its budget, keeps the best attempt and returns
a structure with two atoms closer than `d_min`. -/
theorem claim_C9_counterexample :
    ¬ noOverlap (rattle sBad 4 [0] (fun _ => [(0, 0, 0)])).1 4 := by
  with_unfolding_all decide

/-- Concrete successful run of the amended C9: the single active atom's draw
passes the check and the output respects the bound. -/
theorem claim_C9_witness :
    pairsOK sGood 1 [0] ∧ (rattle sGood 1 [0] (fun _ => [((1 : ℚ), 0, 0)])).2 = true ∧
    noOverlap (rattle sGood 1 [0] (fun _ => [((1 : ℚ), 0, 0)])).1 1 :=
  ⟨by with_unfolding_all decide, by with_unfolding_all decide,
    claim_C9 sGood 1 [0] (fun _ => [((1 : ℚ), 0, 0)])
      (by with_unfolding_all decide) (by with_unfolding_all decide)⟩
